import Mathlib

/-!
Shallow embedding of the StateForge finite-state-machine engine
(`src/StateForge.h`, namespace `StateForge`).

States, events and contexts are arbitrary types with decidable equality.
Side effects of the user-supplied callbacks (which in C++ may mutate the
contexts or any other program state) are modelled by threading an explicit
world value of type `W` through every callback: an `on_enter` / `on_exit`
callback is a function `StateType → EventType → StateType → Option Ctx → W → W`,
and a decision callback `on_transition` additionally returns the `TranResult`.
A null `std::function` or null context pointer is `none`.
-/

namespace StateForge

/-- The `TranResult` enumeration of `StateForge.h`. -/
inductive TranResult where
  | Change
  | NoChange
  | Reset
  | NotFound
  | InvalidContext
deriving DecidableEq, Repr

/-- The `Transition` descriptor of `StateForge.h` (lines 46-60): an edge with
`from`, `event`, `to`, three nullable callbacks and a nullable context pointer.
The C++ field `from` is spelled `from_` because `from` is a Lean keyword. -/
structure Transition (StateType EventType Ctx W : Type) where
  from_ : StateType
  event : EventType
  to_ : StateType
  on_enter : Option (StateType → EventType → StateType → Option Ctx → W → W)
  on_transition : Option (StateType → EventType → StateType → Option Ctx → W → TranResult × W)
  on_exit : Option (StateType → EventType → StateType → Option Ctx → W → W)
  context : Option Ctx

/-- The `StateMachine` data of `StateForge.h` (lines 133-136). -/
structure StateMachine (StateType EventType Ctx W : Type) where
  initial_state : StateType
  current_state : StateType
  transitions : List (Transition StateType EventType Ctx W)

variable {StateType EventType Ctx W : Type}

/-- The `StateMachine` constructor (lines 68-72): stores the table verbatim and
sets the current state to the initial state. -/
def mkStateMachine (initial_state : StateType)
    (transitions : List (Transition StateType EventType Ctx W)) :
    StateMachine StateType EventType Ctx W :=
  { initial_state := initial_state, current_state := initial_state, transitions := transitions }

/-- The outer loop of `dispatch` (lines 81-82): first descriptor in declaration
order whose `from` equals the current state and whose `event` equals the
submitted event. -/
def findMatch [DecidableEq StateType] [DecidableEq EventType]
    (current : StateType) (event : EventType) :
    List (Transition StateType EventType Ctx W) → Option (Transition StateType EventType Ctx W)
  | [] => none
  | t :: ts => if t.from_ = current ∧ t.event = event then some t else findMatch current event ts

/-- The inner loop condition of `dispatch` (lines 98-99): first descriptor in
declaration order whose `from` equals the next state and whose `on_enter` is
non-null. -/
def findEnter [DecidableEq StateType] (next_state : StateType) :
    List (Transition StateType EventType Ctx W) → Option (Transition StateType EventType Ctx W)
  | [] => none
  | t :: ts =>
    if t.from_ = next_state ∧ t.on_enter.isSome then some t else findEnter next_state ts

/-- Lines 83-89 of `dispatch`: the outcome is the decision callback's return
value when the callback is present, `Change` otherwise. -/
def decideOutcome (t : Transition StateType EventType Ctx W) (w : W) : TranResult × W :=
  match t.on_transition with
  | none => (TranResult.Change, w)
  | some f => f t.from_ t.event t.to_ t.context w

/-- Lines 91-92 of `dispatch`: invoke `on_exit` if present. -/
def runExit (t : Transition StateType EventType Ctx W) (w : W) : W :=
  match t.on_exit with
  | none => w
  | some g => g t.from_ t.event t.to_ t.context w

/-- Lines 98-107 of `dispatch`: invoke the entering descriptor's `on_enter`
(if one is found) with the originally selected descriptor's `from`, `event`,
`to` and the entering descriptor's own context. -/
def runEnter [DecidableEq StateType]
    (transitions : List (Transition StateType EventType Ctx W))
    (t : Transition StateType EventType Ctx W) (next_state : StateType) (w : W) : W :=
  match findEnter next_state transitions with
  | none => w
  | some nt => nt.on_enter.getD (fun _ _ _ _ w => w) t.from_ t.event t.to_ nt.context w

/-- The body of `dispatch` once a descriptor `t` has matched (lines 83-113):
decide the outcome, run `on_exit`, compute the next state, run the entering
`on_enter`, then commit the current state according to the outcome. -/
def dispatchSelected [DecidableEq StateType] [DecidableEq EventType]
    (m : StateMachine StateType EventType Ctx W)
    (t : Transition StateType EventType Ctx W) (w : W) :
    TranResult × StateMachine StateType EventType Ctx W × W :=
  let rw := decideOutcome t w
  let result := rw.1
  let w1 := rw.2
  let w2 := runExit t w1
  let next_state := if result = TranResult.Reset then m.initial_state else t.to_
  let w3 := runEnter m.transitions t next_state w2
  match result with
  | TranResult.Change => (result, { m with current_state := t.to_ }, w3)
  | TranResult.Reset => (result, { m with current_state := m.initial_state }, w3)
  | _ => (result, m, w3)

/-- `StateMachine::dispatch` (lines 80-118). Returns the outcome, the updated
machine and the updated world. -/
def dispatch [DecidableEq StateType] [DecidableEq EventType]
    (m : StateMachine StateType EventType Ctx W) (event : EventType) (w : W) :
    TranResult × StateMachine StateType EventType Ctx W × W :=
  match findMatch m.current_state event m.transitions with
  | none => (TranResult.NotFound, m, w)
  | some t => dispatchSelected m t w

/-- `StateMachine::getCurrentState` (line 120). -/
def getCurrentState (m : StateMachine StateType EventType Ctx W) : StateType :=
  m.current_state

/-- `StateMachine::resetState` (line 121): sets the current state to the
initial state; the world is passed through untouched (no callback runs). -/
def resetState (m : StateMachine StateType EventType Ctx W) (w : W) :
    StateMachine StateType EventType Ctx W × W :=
  ({ m with current_state := m.initial_state }, w)

/-- The loop of `getContext` (lines 124-130): first descriptor matching all
three key fields; its context is returned (possibly null), else null. -/
def findByKey [DecidableEq StateType] [DecidableEq EventType]
    (from_ : StateType) (event : EventType) (to_ : StateType) :
    List (Transition StateType EventType Ctx W) → Option Ctx
  | [] => none
  | t :: ts =>
    if t.from_ = from_ ∧ t.event = event ∧ t.to_ = to_ then t.context
    else findByKey from_ event to_ ts

/-- `StateMachine::getContext` (lines 123-131). -/
def getContext [DecidableEq StateType] [DecidableEq EventType]
    (m : StateMachine StateType EventType Ctx W)
    (from_ : StateType) (event : EventType) (to_ : StateType) : Option Ctx :=
  findByKey from_ event to_ m.transitions

/-- An operation on the engine: one `dispatch` call or one `resetState` call. -/
inductive Op (EventType : Type) where
  | dispatchEv (event : EventType)
  | resetSt
deriving DecidableEq, Repr

/-- Run a sequence of operations against the engine. -/
def runOps [DecidableEq StateType] [DecidableEq EventType]
    (m : StateMachine StateType EventType Ctx W) (w : W) :
    List (Op EventType) → StateMachine StateType EventType Ctx W × W
  | [] => (m, w)
  | Op.dispatchEv e :: ops =>
    let r := dispatch m e w
    runOps r.2.1 r.2.2 ops
  | Op.resetSt :: ops =>
    let r := resetState m w
    runOps r.1 r.2 ops

/-! ### Concrete example machines (used to witness the theorems below).
States, events and contexts are numbered; the world `W := Nat` records the
observable effect of the callbacks. -/

/-- Edge 0 → 1 on event 0 with no callbacks and no context. -/
def tA0 : Transition Nat Nat Nat Nat :=
  { from_ := 0, event := 0, to_ := 1, on_enter := none, on_transition := none,
    on_exit := none, context := none }

/-- A one-edge machine starting at 0. -/
def cmA : StateMachine Nat Nat Nat Nat := mkStateMachine 0 [tA0]

/-- An edge that never matches from state 0 (its `from` is 3). -/
def tBX : Transition Nat Nat Nat Nat :=
  { from_ := 3, event := 0, to_ := 4, on_enter := none, on_transition := none,
    on_exit := none, context := none }

/-- A second edge with the same (from, event) key as `tA0` but a different
destination. -/
def tB1 : Transition Nat Nat Nat Nat :=
  { from_ := 0, event := 0, to_ := 2, on_enter := none, on_transition := none,
    on_exit := none, context := none }

/-- A machine with an ambiguous table: both `tA0` and `tB1` match (0, 0). -/
def cmB : StateMachine Nat Nat Nat Nat := mkStateMachine 0 [tBX, tA0, tB1]

/-- Edge 1 → 2 on event 1 carrying an `on_enter` hook (adds 100 to the world)
and context 7; it is the canonical entering edge of state 1. -/
def tC1 : Transition Nat Nat Nat Nat :=
  { from_ := 1, event := 1, to_ := 2, on_enter := some fun _ _ _ _ w => w + 100,
    on_transition := none, on_exit := none, context := some 7 }

/-- A machine whose edge 0 → 1 triggers `tC1`'s enter hook. -/
def cmC : StateMachine Nat Nat Nat Nat := mkStateMachine 0 [tA0, tC1]

/-- Edge 0 → 1 on event 0 whose decision callback returns `Reset` (and adds 1
to the world); `on_exit` adds 10 and `on_enter` adds 1000. -/
def tD0 : Transition Nat Nat Nat Nat :=
  { from_ := 0, event := 0, to_ := 1,
    on_enter := some fun _ _ _ _ w => w + 1000,
    on_transition := some fun _ _ _ _ w => (TranResult.Reset, w + 1),
    on_exit := some fun _ _ _ _ w => w + 10, context := some 3 }

/-- A one-edge machine whose only dispatch resets to the initial state 0. -/
def cmD : StateMachine Nat Nat Nat Nat := mkStateMachine 0 [tD0]

/-- Edge 0 → 1 on event 0 whose decision callback returns `NotFound` (leaving
the world alone) while its `on_exit` adds 1 to the world. -/
def tE0 : Transition Nat Nat Nat Nat :=
  { from_ := 0, event := 0, to_ := 1, on_enter := none,
    on_transition := some fun _ _ _ _ w => (TranResult.NotFound, w),
    on_exit := some fun _ _ _ _ w => w + 1, context := some 5 }

/-- Edge 1 → 2 on event 1 with an `on_enter` hook adding 10 to the world. -/
def tE1 : Transition Nat Nat Nat Nat :=
  { from_ := 1, event := 1, to_ := 2, on_enter := some fun _ _ _ _ w => w + 10,
    on_transition := none, on_exit := none, context := none }

/-- A machine whose matched edge rejects the dispatch with `NotFound`, yet its
hooks still fire. -/
def cmE : StateMachine Nat Nat Nat Nat := mkStateMachine 0 [tE0, tE1]

/-! ### Helper lemmas about the linear scans and the selected-descriptor branch -/

section Lemmas

variable [DecidableEq StateType] [DecidableEq EventType]

theorem findMatch_eq_none (current : StateType) (e : EventType)
    (l : List (Transition StateType EventType Ctx W))
    (h : ∀ t ∈ l, ¬(t.from_ = current ∧ t.event = e)) :
    findMatch current e l = none := by
  induction l with
  | nil => rfl
  | cons t ts ih =>
    simp only [findMatch]
    rw [if_neg (h t (List.mem_cons_self t ts))]
    exact ih fun u hu => h u (List.mem_cons_of_mem t hu)

theorem findMatch_mem (current : StateType) (e : EventType)
    (l : List (Transition StateType EventType Ctx W))
    (t : Transition StateType EventType Ctx W)
    (h : findMatch current e l = some t) :
    t ∈ l ∧ t.from_ = current ∧ t.event = e := by
  induction l with
  | nil => simp [findMatch] at h
  | cons u us ih =>
    simp only [findMatch] at h
    by_cases hc : u.from_ = current ∧ u.event = e
    · rw [if_pos hc] at h
      injection h with h
      subst h
      exact ⟨List.mem_cons_self _ _, hc⟩
    · rw [if_neg hc] at h
      obtain ⟨hm, hp⟩ := ih h
      exact ⟨List.mem_cons_of_mem _ hm, hp⟩

theorem findMatch_append_first (current : StateType) (e : EventType)
    (l1 : List (Transition StateType EventType Ctx W))
    (t : Transition StateType EventType Ctx W)
    (l2 : List (Transition StateType EventType Ctx W))
    (h1 : ∀ u ∈ l1, ¬(u.from_ = current ∧ u.event = e))
    (h2 : t.from_ = current ∧ t.event = e) :
    findMatch current e (l1 ++ t :: l2) = some t := by
  induction l1 with
  | nil => simp [findMatch, if_pos h2]
  | cons u us ih =>
    simp only [List.cons_append, findMatch]
    rw [if_neg (h1 u (List.mem_cons_self u us))]
    exact ih fun v hv => h1 v (List.mem_cons_of_mem u hv)

omit [DecidableEq EventType] in
theorem findEnter_append_first (s : StateType)
    (l1 : List (Transition StateType EventType Ctx W))
    (t : Transition StateType EventType Ctx W)
    (l2 : List (Transition StateType EventType Ctx W))
    (h1 : ∀ u ∈ l1, ¬(u.from_ = s ∧ u.on_enter.isSome))
    (h2 : t.from_ = s ∧ t.on_enter.isSome) :
    findEnter s (l1 ++ t :: l2) = some t := by
  induction l1 with
  | nil => simp [findEnter, if_pos h2]
  | cons u us ih =>
    simp only [List.cons_append, findEnter]
    rw [if_neg (h1 u (List.mem_cons_self u us))]
    exact ih fun v hv => h1 v (List.mem_cons_of_mem u hv)

theorem findByKey_eq_none (from_ : StateType) (e : EventType) (to_ : StateType)
    (l : List (Transition StateType EventType Ctx W))
    (h : ∀ t ∈ l, ¬(t.from_ = from_ ∧ t.event = e ∧ t.to_ = to_)) :
    findByKey from_ e to_ l = none := by
  induction l with
  | nil => rfl
  | cons t ts ih =>
    simp only [findByKey]
    rw [if_neg (h t (List.mem_cons_self t ts))]
    exact ih fun u hu => h u (List.mem_cons_of_mem t hu)

theorem findByKey_append_first (from_ : StateType) (e : EventType) (to_ : StateType)
    (l1 : List (Transition StateType EventType Ctx W))
    (t : Transition StateType EventType Ctx W)
    (l2 : List (Transition StateType EventType Ctx W))
    (h1 : ∀ u ∈ l1, ¬(u.from_ = from_ ∧ u.event = e ∧ u.to_ = to_))
    (h2 : t.from_ = from_ ∧ t.event = e ∧ t.to_ = to_) :
    findByKey from_ e to_ (l1 ++ t :: l2) = t.context := by
  induction l1 with
  | nil => simp [findByKey, if_pos h2]
  | cons u us ih =>
    simp only [List.cons_append, findByKey]
    rw [if_neg (h1 u (List.mem_cons_self u us))]
    exact ih fun v hv => h1 v (List.mem_cons_of_mem u hv)

theorem dispatchSelected_fst (m : StateMachine StateType EventType Ctx W)
    (t : Transition StateType EventType Ctx W) (w : W) :
    (dispatchSelected m t w).1 = (decideOutcome t w).1 := by
  unfold dispatchSelected
  cases hdo : (decideOutcome t w).1 <;> simp [hdo]

theorem dispatchSelected_world (m : StateMachine StateType EventType Ctx W)
    (t : Transition StateType EventType Ctx W) (w : W) :
    (dispatchSelected m t w).2.2 =
      runEnter m.transitions t
        (if (decideOutcome t w).1 = TranResult.Reset then m.initial_state else t.to_)
        (runExit t (decideOutcome t w).2) := by
  unfold dispatchSelected
  cases hdo : (decideOutcome t w).1 <;> simp [hdo]

theorem dispatchSelected_machine (m : StateMachine StateType EventType Ctx W)
    (t : Transition StateType EventType Ctx W) (w : W) :
    (dispatchSelected m t w).2.1.current_state =
      (match (decideOutcome t w).1 with
       | TranResult.Change => t.to_
       | TranResult.Reset => m.initial_state
       | _ => m.current_state) ∧
    (dispatchSelected m t w).2.1.initial_state = m.initial_state ∧
    (dispatchSelected m t w).2.1.transitions = m.transitions := by
  unfold dispatchSelected
  cases hdo : (decideOutcome t w).1 <;> simp [hdo]

theorem dispatchSelected_machine_other (m : StateMachine StateType EventType Ctx W)
    (t : Transition StateType EventType Ctx W) (w : W)
    (h1 : (decideOutcome t w).1 ≠ TranResult.Change)
    (h2 : (decideOutcome t w).1 ≠ TranResult.Reset) :
    (dispatchSelected m t w).2.1 = m := by
  unfold dispatchSelected
  cases hdo : (decideOutcome t w).1 with
  | Change => exact absurd hdo h1
  | Reset => exact absurd hdo h2
  | NoChange => simp [hdo]
  | NotFound => simp [hdo]
  | InvalidContext => simp [hdo]

theorem dispatch_preserves (m : StateMachine StateType EventType Ctx W)
    (e : EventType) (w : W) :
    (dispatch m e w).2.1.initial_state = m.initial_state ∧
    (dispatch m e w).2.1.transitions = m.transitions ∧
    ((dispatch m e w).2.1.current_state = m.current_state ∨
     (dispatch m e w).2.1.current_state = m.initial_state ∨
     ∃ t ∈ m.transitions, (dispatch m e w).2.1.current_state = t.to_) := by
  cases hf : findMatch m.current_state e m.transitions with
  | none =>
    have hd : dispatch m e w = (TranResult.NotFound, m, w) := by
      unfold dispatch
      rw [hf]
    rw [hd]
    exact ⟨rfl, rfl, Or.inl rfl⟩
  | some t =>
    have hd : dispatch m e w = dispatchSelected m t w := by
      unfold dispatch
      rw [hf]
    rw [hd]
    have hm := dispatchSelected_machine m t w
    have htm := findMatch_mem _ _ _ _ hf
    refine ⟨hm.2.1, hm.2.2, ?_⟩
    rw [hm.1]
    cases hdo : (decideOutcome t w).1 with
    | Change => exact Or.inr (Or.inr ⟨t, htm.1, rfl⟩)
    | Reset => exact Or.inr (Or.inl rfl)
    | NoChange => exact Or.inl rfl
    | NotFound => exact Or.inl rfl
    | InvalidContext => exact Or.inl rfl

theorem runOps_invariant (ops : List (Op EventType))
    (m : StateMachine StateType EventType Ctx W) (w : W) :
    (runOps m w ops).1.initial_state = m.initial_state ∧
    (runOps m w ops).1.transitions = m.transitions ∧
    ((m.current_state = m.initial_state ∨ ∃ t ∈ m.transitions, m.current_state = t.to_) →
      ((runOps m w ops).1.current_state = m.initial_state ∨
       ∃ t ∈ m.transitions, (runOps m w ops).1.current_state = t.to_)) := by
  induction ops generalizing m w with
  | nil => exact ⟨rfl, rfl, fun h => h⟩
  | cons op ops ih =>
    cases op with
    | dispatchEv e =>
      have hp := dispatch_preserves m e w
      have hi := ih (dispatch m e w).2.1 (dispatch m e w).2.2
      have hr : runOps m w (Op.dispatchEv e :: ops) =
          runOps (dispatch m e w).2.1 (dispatch m e w).2.2 ops := rfl
      rw [hr]
      refine ⟨hi.1.trans hp.1, hi.2.1.trans hp.2.1, ?_⟩
      intro hcur
      have hcur' : (dispatch m e w).2.1.current_state = (dispatch m e w).2.1.initial_state ∨
          ∃ t ∈ (dispatch m e w).2.1.transitions,
            (dispatch m e w).2.1.current_state = t.to_ := by
        rw [hp.1, hp.2.1]
        rcases hp.2.2 with h | h | h
        · rw [h]
          exact hcur
        · exact Or.inl h
        · exact Or.inr h
      have hres := hi.2.2 hcur'
      rw [hp.1, hp.2.1] at hres
      exact hres
    | resetSt =>
      have hr : runOps m w (Op.resetSt :: ops) =
          runOps (resetState m w).1 (resetState m w).2 ops := rfl
      rw [hr]
      have hi := ih (resetState m w).1 (resetState m w).2
      exact ⟨hi.1, hi.2.1, fun _ => hi.2.2 (Or.inl rfl)⟩

end Lemmas

/-! ### Claim theorems -/

section Claims

variable [DecidableEq StateType] [DecidableEq EventType]

/-- Claim C1: whenever `dispatch` selects a matching transition descriptor, the
returned outcome is the decision callback's return value when the descriptor
has a decision callback and `Change` otherwise, and the current state is
committed according to that outcome: the descriptor's `to` for `Change`, the
initial state for `Reset`, and unchanged for `NoChange`, `NotFound` and
`InvalidContext`; the initial state and the table are never modified. -/
theorem dispatch_outcome_and_commit (m : StateMachine StateType EventType Ctx W)
    (e : EventType) (w : W) (t : Transition StateType EventType Ctx W)
    (h : findMatch m.current_state e m.transitions = some t) :
    (dispatch m e w).1 =
      (match t.on_transition with
       | none => TranResult.Change
       | some f => (f t.from_ t.event t.to_ t.context w).1) ∧
    (dispatch m e w).2.1.current_state =
      (match (dispatch m e w).1 with
       | TranResult.Change => t.to_
       | TranResult.Reset => m.initial_state
       | _ => m.current_state) ∧
    (dispatch m e w).2.1.initial_state = m.initial_state ∧
    (dispatch m e w).2.1.transitions = m.transitions := by
  have hd : dispatch m e w = dispatchSelected m t w := by
    unfold dispatch
    rw [h]
  rw [hd]
  have h1 := dispatchSelected_fst m t w
  have h2 := dispatchSelected_machine m t w
  refine ⟨?_, ?_, h2.2.1, h2.2.2⟩
  · rw [h1]
    unfold decideOutcome
    cases t.on_transition <;> simp
  · rw [h1]
    exact h2.1

/-- Witness for C1 on the concrete machine `cmA`. -/
theorem dispatch_outcome_and_commit_witness :
    findMatch cmA.current_state (0 : Nat) cmA.transitions = some tA0 ∧
    (dispatch cmA 0 0).1 = TranResult.Change ∧
    (dispatch cmA 0 0).2.1.current_state = 1 := by
  have h := dispatch_outcome_and_commit cmA 0 0 tA0 (by rfl)
  exact ⟨by rfl, h.1.trans (by rfl), h.2.1.trans (by rfl)⟩

/-- Claim C2: when no transition descriptor has `from` equal to the current
state and `event` equal to the submitted event, `dispatch` returns `NotFound`,
leaves the machine (in particular the current state) unchanged and runs no
callback (the world is untouched). -/
theorem dispatch_no_match (m : StateMachine StateType EventType Ctx W)
    (e : EventType) (w : W)
    (h : ∀ t ∈ m.transitions, ¬(t.from_ = m.current_state ∧ t.event = e)) :
    dispatch m e w = (TranResult.NotFound, m, w) := by
  unfold dispatch
  rw [findMatch_eq_none m.current_state e m.transitions h]

/-- Witness for C2: event 5 matches no edge of `cmA`. -/
theorem dispatch_no_match_witness :
    (∀ t ∈ cmA.transitions, ¬(t.from_ = cmA.current_state ∧ t.event = (5 : Nat))) ∧
    dispatch cmA 5 0 = (TranResult.NotFound, cmA, 0) := by
  have hh : ∀ t ∈ cmA.transitions, ¬(t.from_ = cmA.current_state ∧ t.event = (5 : Nat)) := by
    intro t ht
    rw [show cmA.transitions = [tA0] from rfl] at ht
    rw [List.mem_singleton] at ht
    subst ht
    decide
  exact ⟨hh, dispatch_no_match cmA 5 0 hh⟩

/-- Claim C3: `dispatch` selects the first descriptor in declaration order
matching (current state, event); when several descriptors match, the first
declared one determines the whole dispatch (the call reduces to
`dispatchSelected` on that descriptor, so only its callbacks, context and `to`
are used and later matches are ignored). -/
theorem dispatch_first_match_wins (m : StateMachine StateType EventType Ctx W)
    (e : EventType) (w : W)
    (l1 : List (Transition StateType EventType Ctx W))
    (t : Transition StateType EventType Ctx W)
    (l2 : List (Transition StateType EventType Ctx W))
    (hT : m.transitions = l1 ++ t :: l2)
    (h1 : ∀ u ∈ l1, ¬(u.from_ = m.current_state ∧ u.event = e))
    (h2 : t.from_ = m.current_state ∧ t.event = e) :
    findMatch m.current_state e m.transitions = some t ∧
    dispatch m e w = dispatchSelected m t w := by
  have hf : findMatch m.current_state e m.transitions = some t := by
    rw [hT]
    exact findMatch_append_first _ _ _ _ _ h1 h2
  refine ⟨hf, ?_⟩
  unfold dispatch
  rw [hf]

/-- Witness for C3: in `cmB` both `tA0` and `tB1` match (0, 0); the first
declared, `tA0`, wins and its destination 1 (not `tB1`'s 2) is committed. -/
theorem dispatch_first_match_wins_witness :
    cmB.transitions = [tBX] ++ tA0 :: [tB1] ∧
    (∀ u ∈ [tBX], ¬(u.from_ = cmB.current_state ∧ u.event = (0 : Nat))) ∧
    (tA0.from_ = cmB.current_state ∧ tA0.event = (0 : Nat)) ∧
    findMatch cmB.current_state (0 : Nat) cmB.transitions = some tA0 ∧
    dispatch cmB 0 0 = dispatchSelected cmB tA0 0 ∧
    (dispatch cmB 0 0).2.1.current_state = 1 := by
  have h1 : ∀ u ∈ [tBX], ¬(u.from_ = cmB.current_state ∧ u.event = (0 : Nat)) := by
    intro u hu
    rw [List.mem_singleton] at hu
    subst hu
    decide
  have h2 : tA0.from_ = cmB.current_state ∧ tA0.event = (0 : Nat) := by decide
  have h := dispatch_first_match_wins cmB 0 0 [tBX] tA0 [tB1] rfl h1 h2
  exact ⟨rfl, h1, h2, h.1, h.2, h.2 ▸ rfl⟩

/-- Claim C4: in every dispatch that selects a descriptor `t`, once the outcome
is known the engine computes the next state (`initialState` for `Reset`,
otherwise `t.to`), scans the table in declaration order for the first
descriptor whose `from` equals that next state and whose `on_enter` is
non-null, and invokes that `on_enter` exactly once, with the originally
selected descriptor's `from`, `event` and `to` but the entering descriptor's
own context, on the world left by the exit hook. -/
theorem dispatch_enter_hook (m : StateMachine StateType EventType Ctx W)
    (e : EventType) (w : W) (t : Transition StateType EventType Ctx W)
    (h : findMatch m.current_state e m.transitions = some t)
    (l1 : List (Transition StateType EventType Ctx W))
    (nt : Transition StateType EventType Ctx W)
    (l2 : List (Transition StateType EventType Ctx W))
    (f : StateType → EventType → StateType → Option Ctx → W → W)
    (hT : m.transitions = l1 ++ nt :: l2)
    (hfrom : nt.from_ =
      (if (decideOutcome t w).1 = TranResult.Reset then m.initial_state else t.to_))
    (h1 : ∀ u ∈ l1,
      ¬(u.from_ =
          (if (decideOutcome t w).1 = TranResult.Reset then m.initial_state else t.to_) ∧
        u.on_enter.isSome))
    (hf : nt.on_enter = some f) :
    (dispatch m e w).2.2 =
      f t.from_ t.event t.to_ nt.context (runExit t (decideOutcome t w).2) := by
  have hd : dispatch m e w = dispatchSelected m t w := by
    unfold dispatch
    rw [h]
  rw [hd, dispatchSelected_world]
  unfold runEnter
  have hfe : findEnter
      (if (decideOutcome t w).1 = TranResult.Reset then m.initial_state else t.to_)
      m.transitions = some nt := by
    rw [hT]
    exact findEnter_append_first _ _ _ _ h1 ⟨hfrom, by rw [hf]; rfl⟩
  rw [hfe]
  show nt.on_enter.getD (fun _ _ _ _ w => w) t.from_ t.event t.to_ nt.context
      (runExit t (decideOutcome t w).2) = _
  rw [hf]
  rfl

/-- Witness for C4 on `cmC`: dispatching event 0 from state 0 selects `tA0`,
the next state is 1, and `tC1`'s enter hook fires once with `tC1`'s context,
leaving 100 in the world. -/
theorem dispatch_enter_hook_witness :
    findMatch cmC.current_state (0 : Nat) cmC.transitions = some tA0 ∧
    cmC.transitions = [tA0] ++ tC1 :: [] ∧
    tC1.on_enter = some (fun _ _ _ _ w => w + 100) ∧
    (dispatch cmC 0 0).2.2 = 100 := by
  have h1 : ∀ u ∈ [tA0],
      ¬(u.from_ =
          (if (decideOutcome tA0 0).1 = TranResult.Reset then cmC.initial_state else tA0.to_) ∧
        u.on_enter.isSome) := by
    intro u hu
    rw [List.mem_singleton] at hu
    subst hu
    decide
  have h := dispatch_enter_hook cmC 0 0 tA0 (by rfl) [tA0] tC1 []
    (fun _ _ _ _ w => w + 100) (by rfl) (by decide) h1 (by rfl)
  exact ⟨by rfl, by rfl, by rfl, h.trans (by rfl)⟩

/-- Claim C5: when the selected descriptor's decision callback returns `Reset`,
the current state after the call is the initial state, and the first table
descriptor whose `from` equals the initial state and that carries an `on_enter`
has that hook invoked during the call. -/
theorem dispatch_reset_outcome (m : StateMachine StateType EventType Ctx W)
    (e : EventType) (w : W) (t : Transition StateType EventType Ctx W)
    (f : StateType → EventType → StateType → Option Ctx → W → TranResult × W)
    (h : findMatch m.current_state e m.transitions = some t)
    (hot : t.on_transition = some f)
    (hres : (f t.from_ t.event t.to_ t.context w).1 = TranResult.Reset) :
    (dispatch m e w).1 = TranResult.Reset ∧
    (dispatch m e w).2.1.current_state = m.initial_state ∧
    (∀ l1 nt l2 g, m.transitions = l1 ++ nt :: l2 →
      (∀ u ∈ l1, ¬(u.from_ = m.initial_state ∧ u.on_enter.isSome)) →
      nt.from_ = m.initial_state → nt.on_enter = some g →
      (dispatch m e w).2.2 =
        g t.from_ t.event t.to_ nt.context
          (runExit t (f t.from_ t.event t.to_ t.context w).2)) := by
  have hd : dispatch m e w = dispatchSelected m t w := by
    unfold dispatch
    rw [h]
  have hdo : decideOutcome t w = f t.from_ t.event t.to_ t.context w := by
    unfold decideOutcome
    rw [hot]
  have hr : (decideOutcome t w).1 = TranResult.Reset := by
    rw [hdo]
    exact hres
  refine ⟨?_, ?_, ?_⟩
  · rw [hd, dispatchSelected_fst, hr]
  · rw [hd, (dispatchSelected_machine m t w).1, hr]
  · intro l1 nt l2 g hT h1 hfrom hg
    rw [hd, dispatchSelected_world, hr, if_pos rfl]
    unfold runEnter
    have hfe : findEnter m.initial_state m.transitions = some nt := by
      rw [hT]
      exact findEnter_append_first _ _ _ _ h1 ⟨hfrom, by rw [hg]; rfl⟩
    rw [hfe]
    show nt.on_enter.getD (fun _ _ _ _ w => w) t.from_ t.event t.to_ nt.context
        (runExit t (decideOutcome t w).2) = _
    rw [hg, hdo]
    rfl

/-- Witness for C5 on `cmD`: the decision callback returns `Reset`, the state
returns to 0, and `tD0`'s own enter hook (the entering edge of the initial
state) fires, leaving 1011 in the world. -/
theorem dispatch_reset_outcome_witness :
    findMatch cmD.current_state (0 : Nat) cmD.transitions = some tD0 ∧
    tD0.on_transition = some (fun _ _ _ _ w => (TranResult.Reset, w + 1)) ∧
    (dispatch cmD 0 0).1 = TranResult.Reset ∧
    (dispatch cmD 0 0).2.1.current_state = 0 ∧
    (dispatch cmD 0 0).2.2 = 1011 := by
  have h := dispatch_reset_outcome cmD 0 0 tD0
    (fun _ _ _ _ w => (TranResult.Reset, w + 1)) (by rfl) (by rfl) (by rfl)
  have hw := h.2.2 [] tD0 [] (fun _ _ _ _ w => w + 1000) (by rfl)
    (by intro u hu; exact absurd hu (List.not_mem_nil u)) (by rfl) (by rfl)
  exact ⟨by rfl, by rfl, h.1, h.2.1.trans (by rfl), hw.trans (by rfl)⟩

/-- Claim C6 counterexample: on `cmE`, dispatching event 0 returns `NotFound`
(the decision callback rejects the edge), yet the call is not side-effect
free — the exit hook and the entering edge's enter hook both fire, moving the
world from 0 to 11. This refutes the claim that every `NotFound`-returning
dispatch has no observable side effect beyond the return value. -/
theorem dispatch_notFound_effect_counterexample :
    (dispatch cmE 0 0).1 = TranResult.NotFound ∧
    (dispatch cmE 0 0).2.1.current_state = 0 ∧
    (dispatch cmE 0 0).2.2 = 11 ∧
    (dispatch cmE 0 0).2.2 ≠ 0 := by
  refine ⟨by rfl, by rfl, by rfl, by decide⟩

/-- Claim C6 (amended): a dispatch that returns `NotFound` never changes the
engine state, and when no descriptor matches at all it also runs no callback
(machine and world are returned untouched); but when a matching descriptor's
decision callback returns `NotFound`, the exit hook and the entering edge's
enter hook (for next state `to`) still run, so contexts may be mutated. -/
theorem dispatch_notFound_frame (m : StateMachine StateType EventType Ctx W)
    (e : EventType) (w : W) :
    ((∀ t ∈ m.transitions, ¬(t.from_ = m.current_state ∧ t.event = e)) →
      dispatch m e w = (TranResult.NotFound, m, w)) ∧
    (∀ t, findMatch m.current_state e m.transitions = some t →
      (dispatch m e w).1 = TranResult.NotFound →
      (dispatch m e w).2.1 = m ∧
      (dispatch m e w).2.2 =
        runEnter m.transitions t t.to_ (runExit t (decideOutcome t w).2)) := by
  constructor
  · intro h
    unfold dispatch
    rw [findMatch_eq_none m.current_state e m.transitions h]
  · intro t ht hnf
    have hd : dispatch m e w = dispatchSelected m t w := by
      unfold dispatch
      rw [ht]
    have hr : (decideOutcome t w).1 = TranResult.NotFound := by
      rw [← dispatchSelected_fst m t w, ← hd]
      exact hnf
    constructor
    · rw [hd]
      exact dispatchSelected_machine_other m t w
        (by rw [hr]; decide) (by rw [hr]; decide)
    · rw [hd, dispatchSelected_world, hr, if_neg (by decide)]

/-- Witness for C6 (amended): on `cmE`, event 7 matches nothing and the call
is a no-op; event 0 matches `tE0`, whose decision callback says `NotFound`:
the state stays 0 but the hooks leave 11 in the world. -/
theorem dispatch_notFound_frame_witness :
    dispatch cmE 7 0 = (TranResult.NotFound, cmE, 0) ∧
    (dispatch cmE 0 0).2.1 = cmE ∧
    (dispatch cmE 0 0).2.2 = 11 := by
  have hno : ∀ t ∈ cmE.transitions, ¬(t.from_ = cmE.current_state ∧ t.event = (7 : Nat)) := by
    intro t ht
    rw [show cmE.transitions = [tE0, tE1] from rfl, List.mem_cons, List.mem_singleton] at ht
    rcases ht with rfl | rfl <;> decide
  have h7 := (dispatch_notFound_frame cmE 7 0).1 hno
  have h0 := (dispatch_notFound_frame cmE 0 0).2 tE0 (by rfl) (by rfl)
  exact ⟨h7, h0.1, h0.2.trans (by rfl)⟩

omit [DecidableEq StateType] [DecidableEq EventType] in
/-- Claim C7: `resetState` always sets the current state to the initial state,
leaves the initial state and the table untouched, and passes the world through
unchanged — no enter, transition or exit callback runs (in contrast with the
`Reset` outcome path of `dispatch`, which does fire the entering hook). -/
theorem resetState_spec (m : StateMachine StateType EventType Ctx W) (w : W) :
    (resetState m w).1.current_state = m.initial_state ∧
    (resetState m w).1.initial_state = m.initial_state ∧
    (resetState m w).1.transitions = m.transitions ∧
    (resetState m w).2 = w :=
  ⟨rfl, rfl, rfl, rfl⟩

/-- Claim C8: `getContext` is a pure lookup: it returns the context attached at
construction to the unique descriptor whose `from`, `event` and `to` all equal
the arguments, and the absence value `none` when no descriptor matches all
three fields. -/
theorem getContext_lookup (m : StateMachine StateType EventType Ctx W)
    (from_ : StateType) (e : EventType) (to_ : StateType) :
    ((∀ t ∈ m.transitions, ¬(t.from_ = from_ ∧ t.event = e ∧ t.to_ = to_)) →
      getContext m from_ e to_ = none) ∧
    (∀ l1 t l2, m.transitions = l1 ++ t :: l2 →
      (t.from_ = from_ ∧ t.event = e ∧ t.to_ = to_) →
      (∀ u ∈ l1 ++ l2, ¬(u.from_ = from_ ∧ u.event = e ∧ u.to_ = to_)) →
      getContext m from_ e to_ = t.context) := by
  constructor
  · intro h
    unfold getContext
    exact findByKey_eq_none _ _ _ _ h
  · intro l1 t l2 hT hk hu
    unfold getContext
    rw [hT]
    exact findByKey_append_first _ _ _ _ _ _
      (fun u hu' => hu u (List.mem_append_left _ hu')) hk

/-- Witness for C8 on `cmC`: the unique edge (1, 1, 2) is `tC1`, whose context
7 is returned; the key (0, 5, 1) matches nothing and yields `none`. -/
theorem getContext_lookup_witness :
    getContext cmC 1 1 2 = tC1.context ∧
    getContext cmC 1 1 2 = some 7 ∧
    getContext cmC 0 5 1 = none := by
  have hu : ∀ u ∈ [tA0] ++ ([] : List (Transition Nat Nat Nat Nat)),
      ¬(u.from_ = 1 ∧ u.event = 1 ∧ u.to_ = 2) := by
    intro u hu'
    rw [List.append_nil, List.mem_singleton] at hu'
    subst hu'
    decide
  have h1 := (getContext_lookup cmC 1 1 2).2 [tA0] tC1 [] (by rfl) (by decide) hu
  have hno : ∀ t ∈ cmC.transitions, ¬(t.from_ = 0 ∧ t.event = (5 : Nat) ∧ t.to_ = 1) := by
    intro t ht
    rw [show cmC.transitions = [tA0, tC1] from rfl, List.mem_cons, List.mem_singleton] at ht
    rcases ht with rfl | rfl <;> decide
  exact ⟨h1, h1.trans (by rfl), (getContext_lookup cmC 0 5 1).1 hno⟩

/-- Claim C9: for an engine constructed with initial state `s0` and table `T`,
after any sequence of `dispatch` and `resetState` calls the current state is
either `s0` or the `to` field of some descriptor of `T`; no operation can set
it to any other value. -/
theorem reachable_states (s0 : StateType)
    (T : List (Transition StateType EventType Ctx W)) (w : W)
    (ops : List (Op EventType)) :
    (runOps (mkStateMachine s0 T) w ops).1.current_state = s0 ∨
    ∃ t ∈ T, (runOps (mkStateMachine s0 T) w ops).1.current_state = t.to_ :=
  (runOps_invariant ops (mkStateMachine s0 T) w).2.2 (Or.inl rfl)

/-- Claim C10: `getContext` returns the same absence value `none` both when no
descriptor matches the (from, event, to) key and when the first matching
descriptor was constructed with no attached context, so a caller cannot
distinguish "edge absent" from "edge present with no context" through
`getContext` alone. -/
theorem getContext_none_ambiguity (m : StateMachine StateType EventType Ctx W)
    (from_ : StateType) (e : EventType) (to_ : StateType) :
    ((∀ t ∈ m.transitions, ¬(t.from_ = from_ ∧ t.event = e ∧ t.to_ = to_)) →
      getContext m from_ e to_ = none) ∧
    (∀ l1 t l2, m.transitions = l1 ++ t :: l2 →
      (∀ u ∈ l1, ¬(u.from_ = from_ ∧ u.event = e ∧ u.to_ = to_)) →
      (t.from_ = from_ ∧ t.event = e ∧ t.to_ = to_) →
      t.context = none →
      getContext m from_ e to_ = none) := by
  constructor
  · intro h
    unfold getContext
    exact findByKey_eq_none _ _ _ _ h
  · intro l1 t l2 hT h1 hk hc
    unfold getContext
    rw [hT, findByKey_append_first _ _ _ _ _ _ h1 hk]
    exact hc

/-- Witness for C10 on `cmC`: the key (9, 9, 9) matches no edge and the key
(0, 0, 1) matches `tA0`, which carries no context; both lookups return
`none`, indistinguishably. -/
theorem getContext_none_ambiguity_witness :
    getContext cmC 9 9 9 = none ∧
    getContext cmC 0 0 1 = none := by
  have hno : ∀ t ∈ cmC.transitions, ¬(t.from_ = 9 ∧ t.event = (9 : Nat) ∧ t.to_ = 9) := by
    intro t ht
    rw [show cmC.transitions = [tA0, tC1] from rfl, List.mem_cons, List.mem_singleton] at ht
    rcases ht with rfl | rfl <;> decide
  have h1 : ∀ u ∈ ([] : List (Transition Nat Nat Nat Nat)),
      ¬(u.from_ = 0 ∧ u.event = (0 : Nat) ∧ u.to_ = 1) := by
    intro u hu
    exact absurd hu (List.not_mem_nil u)
  exact ⟨(getContext_none_ambiguity cmC 9 9 9).1 hno,
    (getContext_none_ambiguity cmC 0 0 1).2 [] tA0 [tC1] (by rfl) h1 (by decide) (by rfl)⟩

end Claims

end StateForge
